import Mathlib

/-
Verification of the mcp-cloud-server agentic core: a shallow embedding of
the provider adapters (src/providers/*.py), the provider factory, and the
agentic loop of src/services/agent.py, with theorems about the claims of
the specification.
-/

/-- JSON values as produced by Python json.loads / dict literals. -/
inductive JVal where
  | null : JVal
  | bool : Bool → JVal
  | num : Int → JVal
  | str : String → JVal
  | arr : List JVal → JVal
  | obj : List (String × JVal) → JVal
deriving Repr

/-- First successful parse over a list of regex matches: models the
Python loops `for match in matches: try: return json.loads(match)
except JSONDecodeError: continue` in ServiceAgent._parse_json_response. -/
def firstParse (jp : String → Option JVal) : List String → Option JVal
  | [] => none
  | m :: ms =>
    match jp m with
    | some j => some j
    | none => firstParse jp ms

/-- The payload returned for an empty final text. -/
def emptyRespPayload : JVal := .obj [("error", .str "Empty response from LLM")]

/-- The payload returned when all three parse strategies fail. -/
def unparsedPayload (text : String) : JVal :=
  .obj [("error", .str "Could not parse JSON from response"), ("raw_response", .str text)]

/-- The payload returned when the iteration ceiling is reached. -/
def maxIterPayload : JVal :=
  .obj [("error", .str "Max iterations reached"), ("partial_data", .null)]

/-- ServiceAgent._parse_json_response, parameterised by json.loads (jp) and
by the two regex match extractors: fm models re.findall of the fenced
code-block pattern, bm models re.findall of the brace pattern. -/
def parseJsonResponse (jp : String → Option JVal) (fm bm : String → List String)
    (text : String) : JVal :=
  if text = "" then emptyRespPayload
  else
    match jp text with
    | some j => j
    | none =>
      match firstParse jp (fm text) with
      | some j => j
      | none =>
        match firstParse jp (bm text) with
        | some j => j
        | none => unparsedPayload text

/-- C3: for nonempty text the three strategies fire in the fixed order
direct parse, fenced-block extraction, brace extraction; a later strategy
fires only when every earlier one failed; when the fenced strategy
succeeds the result is independent of the brace extractor; total failure
yields the error payload carrying the original text. -/
theorem c3_parse_json_recovery_order (jp : String → Option JVal)
    (fm bm bm2 : String → List String) (text : String) (hne : text ≠ "") :
    (∀ j, jp text = some j → parseJsonResponse jp fm bm text = j)
    ∧ (jp text = none → ∀ j, firstParse jp (fm text) = some j →
        parseJsonResponse jp fm bm text = j
        ∧ parseJsonResponse jp fm bm text = parseJsonResponse jp fm bm2 text)
    ∧ (jp text = none → firstParse jp (fm text) = none →
        ∀ j, firstParse jp (bm text) = some j → parseJsonResponse jp fm bm text = j)
    ∧ (jp text = none → firstParse jp (fm text) = none →
        firstParse jp (bm text) = none →
        parseJsonResponse jp fm bm text = unparsedPayload text) := by
  refine ⟨?_, ?_, ?_, ?_⟩
  · intro j hj
    simp [parseJsonResponse, hne, hj]
  · intro hnone j hf
    constructor
    · simp [parseJsonResponse, hne, hnone, hf]
    · simp [parseJsonResponse, hne, hnone, hf]
  · intro hnone hf j hb
    simp [parseJsonResponse, hne, hnone, hf, hb]
  · intro hnone hf hb
    simp [parseJsonResponse, hne, hnone, hf, hb]

/-- A concrete json.loads model for witnesses: parses only the text X. -/
def jpW : String → Option JVal := fun s => if s = "X" then some (.obj []) else none

/-- A concrete fenced-match extractor for witnesses. -/
def fmW : String → List String := fun _ => ["X"]

/-- A concrete brace-match extractor for witnesses. -/
def bmW : String → List String := fun _ => []

/-- Witness for C3 at a concrete input: the text abc fails the direct
parse, the fenced extraction yields X which parses, and the result is the
parsed object. -/
theorem c3_parse_json_recovery_order_witness :
    ("abc" : String) ≠ "" ∧ parseJsonResponse jpW fmW bmW "abc" = JVal.obj [] := by
  have h := c3_parse_json_recovery_order jpW fmW bmW bmW "abc" (by decide)
  exact ⟨by decide, (h.2.1 rfl (JVal.obj []) rfl).1⟩

/-- C10: empty final text returns the dedicated empty-response payload
immediately, independently of all three parse strategies, and that payload
is distinct from the generic total-failure payload (which carries a
raw_response field). -/
theorem c10_empty_text_short_circuit :
    (∀ (jp : String → Option JVal) (fm bm : String → List String),
        parseJsonResponse jp fm bm "" = emptyRespPayload)
    ∧ (∀ (jp jp2 : String → Option JVal) (fm fm2 bm bm2 : String → List String),
        parseJsonResponse jp fm bm "" = parseJsonResponse jp2 fm2 bm2 "")
    ∧ (∀ text, emptyRespPayload ≠ unparsedPayload text) := by
  refine ⟨?_, ?_, ?_⟩
  · intro jp fm bm
    simp [parseJsonResponse]
  · intro jp jp2 fm fm2 bm bm2
    simp [parseJsonResponse]
  · intro text
    simp [emptyRespPayload, unparsedPayload]

/-- One quote character, used where the source emits a quote mark. -/
def quoteChar : String := String.singleton (Char.ofNat 39)

/-- A normalized tool call as consumed by the loop: id, name, arguments. -/
structure ToolCall where
  id : String
  name : String
  input : JVal

/-- Token usage record. -/
structure Usage where
  input_tokens : Nat
  output_tokens : Nat
deriving DecidableEq

/-- Concatenation of a list of strings, as Python str.join with empty
separator. -/
def concatAll : List String → String
  | [] => ""
  | s :: rest => s ++ concatAll rest

/-- The tool-result fragment produced by the OpenAI, Gemini, Vertex and
OpenAI-Responses adapters: a dict with type, tool_use_id, tool_name and
content fields. -/
structure ToolResultFrag where
  type : String
  tool_use_id : String
  tool_name : String
  content : String

/-- The tool-result fragment produced by the Anthropic adapter: a dict
with type, tool_use_id and content fields (no tool_name). -/
structure AToolResult where
  type : String
  tool_use_id : String
  content : String

/- ------------------- Anthropic adapter (anthropic_provider.py) ------- -/

/-- A content block of an Anthropic response. -/
inductive ABlock where
  | text : String → ABlock
  | tool_use : String → String → JVal → ABlock

/-- An Anthropic response: stop_reason, content blocks and usage. -/
structure AResponse where
  stop_reason : String
  content : List ABlock
  usage : Usage

/-- AnthropicProvider.parse_tool_calls: the tool_use blocks. -/
def anthropicParseToolCalls (r : AResponse) : List ToolCall :=
  r.content.filterMap fun b =>
    match b with
    | .tool_use id name input => some ⟨id, name, input⟩
    | _ => none

/-- AnthropicProvider.format_tool_result. -/
def anthropicFormatToolResult (tool_use_id _tool_name result : String) : AToolResult :=
  ⟨"tool_result", tool_use_id, result⟩

/-- AnthropicProvider.is_complete: stop_reason equals end_turn. -/
def anthropicIsComplete (r : AResponse) : Bool :=
  r.stop_reason == "end_turn"

/-- The block scan of AnthropicProvider.extract_final_response: return
the first block that has a text attribute, else the empty string. -/
def anthropicFirstText : List ABlock → String
  | [] => ""
  | .text s :: _ => s
  | .tool_use _ _ _ :: rest => anthropicFirstText rest

/-- AnthropicProvider.extract_final_response. -/
def anthropicExtractFinalResponse (r : AResponse) : String :=
  anthropicFirstText r.content

/-- AnthropicProvider.format_assistant_message: the raw content blocks. -/
def anthropicFormatAssistantMessage (r : AResponse) : List ABlock :=
  r.content

/-- AnthropicProvider.get_usage. -/
def anthropicGetUsage (r : AResponse) : Usage :=
  r.usage

/-- Modelled from the spec: the concatenation of all textual parts of an
Anthropic response, in order (what C6 asserts the adapter returns). -/
def anthropicAllTextConcat (blocks : List ABlock) : String :=
  concatAll (blocks.filterMap fun b =>
    match b with
    | .text s => some s
    | _ => none)

/- ------------------- OpenAI chat adapter (openai_provider.py) -------- -/

/-- The function field of an OpenAI tool call. -/
structure OFunction where
  name : String
  arguments : String

/-- A tool call in an OpenAI chat message. -/
structure OMsgToolCall where
  id : String
  function : OFunction

/-- An OpenAI chat message: optional content, tool calls (empty models
the absent or null field). -/
structure OMessage where
  content : Option String
  tool_calls : List OMsgToolCall

/-- An OpenAI chat choice. -/
structure OChoice where
  finish_reason : String
  message : OMessage

/-- An OpenAI chat response. -/
structure OResponse where
  choices : List OChoice
  usage : Option Usage

/-- OpenAIProvider.is_complete: stop first, then pending tool calls. -/
def openaiIsComplete (r : OResponse) : Bool :=
  match r.choices with
  | [] => true
  | c :: _ =>
    if c.finish_reason == "stop" then true
    else if !c.message.tool_calls.isEmpty then false
    else true

/-- OpenAIProvider.parse_tool_calls, parameterised by json.loads (jp);
unparseable or empty argument strings degrade to the empty object. -/
def openaiParseToolCalls (jp : String → Option JVal) (r : OResponse) : List ToolCall :=
  match r.choices with
  | [] => []
  | c :: _ =>
    c.message.tool_calls.map fun tc =>
      { id := tc.id, name := tc.function.name,
        input :=
          if tc.function.arguments = "" then JVal.obj []
          else (jp tc.function.arguments).getD (JVal.obj []) }

/-- OpenAIProvider.format_tool_result. -/
def openaiFormatToolResult (tool_use_id tool_name result : String) : ToolResultFrag :=
  ⟨"tool_result", tool_use_id, tool_name, result⟩

/-- OpenAIProvider.extract_final_response. -/
def openaiExtractFinalResponse (r : OResponse) : String :=
  match r.choices with
  | [] => ""
  | c :: _ => c.message.content.getD ""

/-- The assistant message built by OpenAIProvider.format_assistant_message:
content key present only when content is truthy, tool_calls key present
only when tool calls are present (empty list models absence). -/
structure OAsstMsg where
  content : Option String
  tool_calls : List OMsgToolCall

/-- OpenAIProvider.format_assistant_message. -/
def openaiFormatAssistantMessage (r : OResponse) : OAsstMsg :=
  match r.choices with
  | [] => { content := some "", tool_calls := [] }
  | c :: _ =>
    { content :=
        match c.message.content with
        | some s => if s = "" then none else some s
        | none => none,
      tool_calls := c.message.tool_calls }

/-- OpenAIProvider.get_usage. -/
def openaiGetUsage (r : OResponse) : Usage :=
  r.usage.getD ⟨0, 0⟩

/- ------------------- Gemini adapter (gemini_provider.py) ------------- -/

/-- A Gemini function call: name and arguments dict. -/
structure GFunctionCall where
  name : String
  args : List (String × JVal)

/-- A part of a Gemini candidate content: optional text, optional
function call (both attributes exist on the SDK Part type; None models
absence). -/
structure GPart where
  text : Option String
  function_call : Option GFunctionCall

/-- The content of a Gemini candidate. -/
structure GCandContent where
  parts : List GPart

/-- A Gemini candidate; content may be None. -/
structure GCandidate where
  content : Option GCandContent

/-- A Gemini response. -/
structure GResponse where
  candidates : List GCandidate
  usage_metadata : Option Usage

/-- The parts of the first candidate, empty when absent. -/
def geminiResponseParts (r : GResponse) : List GPart :=
  match r.candidates with
  | [] => []
  | c :: _ =>
    match c.content with
    | none => []
    | some ct => ct.parts

/-- GeminiProvider.is_complete: no candidates, no content or no parts
means done; any function_call part means not complete. -/
def geminiIsComplete (r : GResponse) : Bool :=
  match r.candidates with
  | [] => true
  | c :: _ =>
    match c.content with
    | none => true
    | some ct =>
      if ct.parts.isEmpty then true
      else if ct.parts.any (fun p => p.function_call.isSome) then false
      else true

/-- GeminiProvider.parse_tool_calls: function-call parts with synthetic
ids gemini_tool_i from the enumeration index. -/
def geminiParseToolCalls (r : GResponse) : List ToolCall :=
  (geminiResponseParts r).enum.filterMap fun ip =>
    match ip.2.function_call with
    | some fc => some ⟨"gemini_tool_" ++ toString ip.1, fc.name, JVal.obj fc.args⟩
    | none => none

/-- An item of a list-valued conversation message for the Gemini/Vertex
adapters: a text dict, a function_call dict, or a tool_result dict (the
constructor encodes the type field of the source dict). -/
inductive GItem where
  | textItem : String → GItem
  | functionCallItem : String → List (String × JVal) → GItem
  | toolResultItem : String → String → String → GItem

/-- GeminiProvider.format_tool_result: the dict with type tool_result,
tool_use_id, tool_name and content. -/
def geminiFormatToolResult (tool_use_id tool_name result : String) : GItem :=
  .toolResultItem tool_use_id tool_name result

/-- The truthy text parts collected by GeminiProvider.extract_final_response
(a part with empty-string text is falsy in Python and skipped). -/
def geminiCollectTexts : List GPart → List String
  | [] => []
  | p :: ps =>
    match p.text with
    | some s => if s = "" then geminiCollectTexts ps else s :: geminiCollectTexts ps
    | none => geminiCollectTexts ps

/-- GeminiProvider.extract_final_response. -/
def geminiExtractFinalResponse (r : GResponse) : String :=
  match r.candidates with
  | [] => ""
  | c :: _ =>
    match c.content with
    | none => ""
    | some ct =>
      if ct.parts.isEmpty then ""
      else concatAll (geminiCollectTexts ct.parts)

/-- Modelled from the spec: the concatenation of all textual parts of a
Gemini response, in order (what C6 asserts the adapter returns). -/
def geminiAllTextConcat (r : GResponse) : String :=
  concatAll ((geminiResponseParts r).filterMap (fun p => p.text))

/-- A conversation message as seen by GeminiProvider._build_contents:
role plus either a string content or a list of items. -/
inductive GConvMsg where
  | text : String → String → GConvMsg
  | items : String → List GItem → GConvMsg

/-- GeminiProvider.format_assistant_message: text parts (truthy only)
and function_call parts preserved as dicts; falls back to empty string
content when nothing is collected. -/
def geminiFormatAssistantMessage (r : GResponse) : GConvMsg :=
  let parts := (geminiResponseParts r).filterMap fun p =>
    match p.text with
    | some s =>
      if s = "" then p.function_call.map (fun fc => GItem.functionCallItem fc.name fc.args)
      else some (GItem.textItem s)
    | none => p.function_call.map (fun fc => GItem.functionCallItem fc.name fc.args)
  if parts.isEmpty then .text "model" "" else .items "model" parts

/-- GeminiProvider.get_usage. -/
def geminiGetUsage (r : GResponse) : Usage :=
  r.usage_metadata.getD ⟨0, 0⟩

/-- A part of a rebuilt Gemini request content: a text part or a
function_response part (name plus result string). -/
inductive GenPart where
  | textPart : String → GenPart
  | functionResponse : String → String → GenPart

/-- A content turn of a rebuilt Gemini request. -/
structure GContent where
  role : String
  parts : List GenPart

/-- The role mapping of GeminiProvider._build_contents. -/
def geminiMapRole (role : String) : String :=
  if role == "assistant" then "model" else role

/-- GeminiProvider._build_contents: string contents become single text
parts; list contents keep only tool_result items, converted to
function_response parts correlated by tool name; system messages and
item lists yielding no parts are dropped. -/
def geminiBuildContents (msgs : List GConvMsg) : List GContent :=
  msgs.flatMap fun m =>
    match m with
    | .text role content =>
      if role == "system" then []
      else [⟨geminiMapRole role, [.textPart content]⟩]
    | .items role its =>
      if role == "system" then []
      else
        let parts := its.filterMap fun it =>
          match it with
          | .toolResultItem _ name content => some (GenPart.functionResponse name content)
          | _ => none
        if parts.isEmpty then [] else [⟨geminiMapRole role, parts⟩]

/- ------------------- Vertex adapter (vertex_provider.py) ------------- -/

/-- VertexProvider.is_complete (same logic as the Gemini adapter, over
the same response shape). -/
def vertexIsComplete (r : GResponse) : Bool :=
  match r.candidates with
  | [] => true
  | c :: _ =>
    match c.content with
    | none => true
    | some ct =>
      if ct.parts.isEmpty then true
      else if ct.parts.any (fun p => p.function_call.isSome) then false
      else true

/-- VertexProvider.parse_tool_calls with synthetic ids vertex_tool_i. -/
def vertexParseToolCalls (r : GResponse) : List ToolCall :=
  (geminiResponseParts r).enum.filterMap fun ip =>
    match ip.2.function_call with
    | some fc => some ⟨"vertex_tool_" ++ toString ip.1, fc.name, JVal.obj fc.args⟩
    | none => none

/-- VertexProvider.format_tool_result: same dict shape as the Gemini
adapter. -/
def vertexFormatToolResult (tool_use_id tool_name result : String) : GItem :=
  .toolResultItem tool_use_id tool_name result

/-- VertexProvider.extract_final_response. -/
def vertexExtractFinalResponse (r : GResponse) : String :=
  match r.candidates with
  | [] => ""
  | c :: _ =>
    match c.content with
    | none => ""
    | some ct =>
      if ct.parts.isEmpty then ""
      else concatAll (geminiCollectTexts ct.parts)

/- ------------- OpenAI Responses adapter (openai_responses_provider.py) - -/

/-- A content element of a Responses API message item. -/
inductive RContent where
  | output_text : String → RContent
  | otherContent : RContent

/-- An output item of a Responses API response. -/
inductive RItem where
  | message : String → List RContent → RItem
  | function_call : String → String → String → RItem
  | otherItem : RItem

/-- A Responses API response. -/
structure RResponse where
  status : String
  output : List RItem
  usage : Option Usage

/-- Whether an output item is a function_call item. -/
def isFunctionCallItem : RItem → Bool
  | .function_call _ _ _ => true
  | _ => false

/-- OpenAIResponsesProvider.is_complete: status must be completed and no
function_call item may remain in the output. -/
def responsesIsComplete (r : RResponse) : Bool :=
  if r.status == "completed" then !(r.output.any isFunctionCallItem)
  else false

/-- OpenAIResponsesProvider.parse_tool_calls, parameterised by json.loads. -/
def responsesParseToolCalls (jp : String → Option JVal) (r : RResponse) : List ToolCall :=
  r.output.filterMap fun it =>
    match it with
    | .function_call call_id name arguments =>
      some ⟨call_id, name,
        if arguments = "" then JVal.obj []
        else (jp arguments).getD (JVal.obj [])⟩
    | _ => none

/-- OpenAIResponsesProvider.format_tool_result. -/
def responsesFormatToolResult (tool_use_id tool_name result : String) : ToolResultFrag :=
  ⟨"tool_result", tool_use_id, tool_name, result⟩

/-- OpenAIResponsesProvider.extract_final_response: all output_text
elements of assistant message items, concatenated in order. -/
def responsesExtractFinalResponse (r : RResponse) : String :=
  concatAll (r.output.flatMap fun it =>
    match it with
    | .message role content =>
      if role == "assistant" then
        content.filterMap fun c =>
          match c with
          | .output_text t => some t
          | _ => none
      else []
    | _ => [])

/-- OpenAIResponsesProvider.get_usage. -/
def responsesGetUsage (r : RResponse) : Usage :=
  r.usage.getD ⟨0, 0⟩

/- ------------------- config.py and pricing ---------------------------- -/

/-- A pricing rate: USD per million input and output tokens. -/
structure Pricing where
  input : ℚ
  output : ℚ
deriving DecidableEq

/-- The unified model table MODELS of config.py: model name mapped to
provider name and pricing. -/
def MODELS : List (String × String × Pricing) :=
  [("claude-haiku-4-5", ("anthropic", ⟨1.00, 5.00⟩)),
   ("claude-sonnet-4", ("anthropic", ⟨3.00, 15.00⟩)),
   ("claude-opus-4", ("anthropic", ⟨15.00, 75.00⟩)),
   ("gpt-5-mini", ("openai", ⟨0.25, 2.00⟩)),
   ("gpt-5-nano", ("openai", ⟨0.05, 0.40⟩)),
   ("gemini-3-flash-preview", ("gemini", ⟨0.50, 3.00⟩))]

/-- DEFAULT_PRICING of config.py. -/
def DEFAULT_PRICING : Pricing := ⟨1.00, 5.00⟩

/-- LLM_PROVIDER of config.py. -/
def LLM_PROVIDER : String := "anthropic"

/-- The provider recorded in MODELS for a model name. -/
def modelsProvider (model : String) : Option String :=
  (MODELS.lookup model).map (fun e => e.1)

/-- The pricing recorded in MODELS for a model name. -/
def modelsPricing (model : String) : Option Pricing :=
  (MODELS.lookup model).map (fun e => e.2)

/-- LLMProvider.pricing of base.py: table lookup with default fallback.
Inherited by the Anthropic, Gemini, Vertex and OpenAI-Responses adapters. -/
def basePricing (model_name : String) : Pricing :=
  (modelsPricing model_name).getD DEFAULT_PRICING

/-- OpenAIProvider.pricing of openai_provider.py: a hard-coded constant
rate, ignoring the model name. -/
def openaiPricing (_model_name : String) : Pricing :=
  ⟨0.25, 2.00⟩

/- ------------------- factory.py --------------------------------------- -/

/-- The adapter kinds the factory can construct. -/
inductive ProviderKind where
  | anthropic | gemini | vertex | openai | openaiResponses
deriving DecidableEq

/-- A raised Python exception: class name and message. -/
structure PyError where
  className : String
  message : String
deriving DecidableEq

/-- The keys of the providers dict in get_provider. -/
def providerIds : List String := ["anthropic", "gemini", "vertex", "openai"]

/-- The Available part of the unknown-provider message: the f-string
rendering of the providers dict key list. -/
def availableStr : String :=
  "[" ++ quoteChar ++ "anthropic" ++ quoteChar ++ ", " ++ quoteChar ++ "gemini"
    ++ quoteChar ++ ", " ++ quoteChar ++ "vertex" ++ quoteChar ++ ", "
    ++ quoteChar ++ "openai" ++ quoteChar ++ "]"

/-- The message of the ValueError raised for an unknown provider name. -/
def unknownProviderMsg (name : String) : String :=
  "Unknown provider: " ++ name ++ ". Available: " ++ availableStr

/-- get_provider of factory.py: infer the provider from the model when no
name is given (the model must be truthy, so the empty string does not
trigger inference), fall back to LLM_PROVIDER when the resolved name is
falsy (None or the empty string, per the Python or), fail on unknown
names, and route openai to the Responses variant when the api mode asks
for it. -/
def get_provider (provider_name model : Option String) (api_mode : String) :
    Except PyError ProviderKind :=
  let inferred : Option String :=
    match provider_name with
    | none =>
      match model with
      | some m => if m = "" then none else modelsProvider m
      | none => none
    | some p => some p
  let name :=
    match inferred with
    | none => LLM_PROVIDER
    | some p => if p = "" then LLM_PROVIDER else p
  if name ∈ providerIds then
    if name = "openai" then
      if api_mode = "responses" then .ok .openaiResponses else .ok .openai
    else if name = "anthropic" then .ok .anthropic
    else if name = "gemini" then .ok .gemini
    else .ok .vertex
  else .error ⟨"ValueError", unknownProviderMsg name⟩

/-- Whether needle occurs as a contiguous substring of hay. -/
def strMentions (needle hay : String) : Bool :=
  decide (needle.data <:+: hay.data)

/-- Occurrence is preserved by prepending text. -/
theorem strMentions_append_left (needle s t : String)
    (h : strMentions needle t = true) : strMentions needle (s ++ t) = true := by
  obtain ⟨u, v, huv⟩ := of_decide_eq_true h
  refine decide_eq_true ⟨s.data ++ u, v, ?_⟩
  rw [String.data_append, ← huv]
  simp [List.append_assoc]

/- ------------------- agentic loop (services/agent.py) ----------------- -/

/-- The provider capability set the loop depends on, polymorphic in the
vendor response type ρ, the assistant-message type μ and the tool-result
fragment type τ. -/
structure ProviderM (ρ μ τ : Type) where
  is_complete : ρ → Bool
  parse_tool_calls : ρ → List ToolCall
  extract_final_response : ρ → String
  format_assistant_message : ρ → μ
  format_tool_result : String → String → String → τ
  get_usage : ρ → Usage

/-- A message of the loop conversation: the initial user text, an
assistant message appended from format_assistant_message, or a user
message whose content is the list of tool-result fragments. -/
inductive LoopMsg (μ τ : Type) where
  | user : String → LoopMsg μ τ
  | assistant : μ → LoopMsg μ τ
  | toolResults : List τ → LoopMsg μ τ

/-- The outcome of one loop invocation: the parsed result (the data
field of the wrapped response), the iteration count (one per adapter
call), accumulated usage and the final conversation. -/
structure LoopOutcome (μ τ : Type) where
  data : JVal
  iterations : Nat
  usage : Usage
  messages : List (LoopMsg μ τ)

/-- Pointwise accumulation of usage records. -/
def addUsage (a b : Usage) : Usage :=
  ⟨a.input_tokens + b.input_tokens, a.output_tokens + b.output_tokens⟩

/-- The catalog of tool functions (TOOL_FUNCTIONS): a function either
returns a result string or raises, modelled as Except. -/
def ToolFuns : Type := String → Option (JVal → Except String String)

/-- The error string for a tool name absent from the catalog. -/
def unknownToolMsg (tool_name : String) : String :=
  "Error: Unknown tool " ++ quoteChar ++ tool_name ++ quoteChar

/-- The error string for a tool function that raised. -/
def toolRaisedMsg (tool_name e : String) : String :=
  "Error executing " ++ tool_name ++ ": " ++ e

/-- ServiceAgent._execute_tool: resolve the function in the catalog and
run it; an unknown name or a raised exception becomes an error string,
never a propagated failure. -/
def executeTool (toolFuns : ToolFuns) (tc : ToolCall) : String :=
  match toolFuns tc.name with
  | none => unknownToolMsg tc.name
  | some f =>
    match f tc.input with
    | .ok result => result
    | .error e => toolRaisedMsg tc.name e

/-- The agentic while-loop of ServiceAgent.process_request. The vendor is
an oracle giving the response of each adapter call; fuel is the remaining
iteration budget, so the loop enters only while iteration < max_iterations.
jp, fm and bm are the JSON-recovery parameters of parseJsonResponse. -/
def processLoop (P : ProviderM ρ μ τ) (toolFuns : ToolFuns) (oracle : Nat → ρ)
    (jp : String → Option JVal) (fm bm : String → List String) :
    Nat → Nat → List (LoopMsg μ τ) → Usage → LoopOutcome μ τ
  | 0, iteration, msgs, usage =>
    { data := maxIterPayload, iterations := iteration, usage := usage, messages := msgs }
  | fuel + 1, iteration, msgs, usage =>
    let it := iteration + 1
    let response := oracle it
    let usage2 := addUsage usage (P.get_usage response)
    if P.is_complete response then
      { data := parseJsonResponse jp fm bm (P.extract_final_response response),
        iterations := it, usage := usage2, messages := msgs }
    else
      let tcs := P.parse_tool_calls response
      if tcs.isEmpty then
        { data := parseJsonResponse jp fm bm (P.extract_final_response response),
          iterations := it, usage := usage2, messages := msgs }
      else
        let results := tcs.map fun tc =>
          P.format_tool_result tc.id tc.name (executeTool toolFuns tc)
        processLoop P toolFuns oracle jp fm bm fuel it
          (msgs ++ [.assistant (P.format_assistant_message response), .toolResults results])
          usage2

/-- The iteration ceiling of ServiceAgent.process_request. -/
def max_iterations : Nat := 10

/-- ServiceAgent.process_request: run the loop from the initial user
message with the full budget. -/
def processRequest (P : ProviderM ρ μ τ) (toolFuns : ToolFuns) (oracle : Nat → ρ)
    (jp : String → Option JVal) (fm bm : String → List String)
    (userMessage : String) : LoopOutcome μ τ :=
  processLoop P toolFuns oracle jp fm bm max_iterations 0 [.user userMessage] ⟨0, 0⟩

/-- One tool-call turn of the loop: when the response is not complete
and produced tool calls, the loop appends the assistant message and one
single user message holding the per-call tool-result fragments, then
re-enters with the next iteration index. -/
theorem processLoop_step (P : ProviderM ρ μ τ) (toolFuns : ToolFuns) (oracle : Nat → ρ)
    (jp : String → Option JVal) (fm bm : String → List String)
    (fuel iteration : Nat) (msgs : List (LoopMsg μ τ)) (usage : Usage)
    (hnc : P.is_complete (oracle (iteration + 1)) = false)
    (htc : P.parse_tool_calls (oracle (iteration + 1)) ≠ []) :
    processLoop P toolFuns oracle jp fm bm (fuel + 1) iteration msgs usage
      = processLoop P toolFuns oracle jp fm bm fuel (iteration + 1)
          (msgs ++ [.assistant (P.format_assistant_message (oracle (iteration + 1))),
                    .toolResults ((P.parse_tool_calls (oracle (iteration + 1))).map fun tc =>
                      P.format_tool_result tc.id tc.name (executeTool toolFuns tc))])
          (addUsage usage (P.get_usage (oracle (iteration + 1)))) := by
  obtain ⟨a, l, hl⟩ := List.exists_cons_of_ne_nil htc
  simp [processLoop, hnc, hl]

/-- When no response ever completes and every response carries tool
calls, the loop consumes its whole budget and returns the ceiling
payload. -/
theorem processLoop_exhausts (P : ProviderM ρ μ τ) (toolFuns : ToolFuns) (oracle : Nat → ρ)
    (jp : String → Option JVal) (fm bm : String → List String)
    (hnc : ∀ i, P.is_complete (oracle i) = false)
    (htc : ∀ i, P.parse_tool_calls (oracle i) ≠ []) :
    ∀ (fuel iteration : Nat) (msgs : List (LoopMsg μ τ)) (usage : Usage),
      (processLoop P toolFuns oracle jp fm bm fuel iteration msgs usage).iterations
          = iteration + fuel
      ∧ (processLoop P toolFuns oracle jp fm bm fuel iteration msgs usage).data
          = maxIterPayload := by
  intro fuel
  induction fuel with
  | zero => intro iteration msgs usage; exact ⟨rfl, rfl⟩
  | succ fuel ih =>
    intro iteration msgs usage
    rw [processLoop_step P toolFuns oracle jp fm bm fuel iteration msgs usage
      (hnc _) (htc _)]
    have h := ih (iteration + 1)
      (msgs ++ [.assistant (P.format_assistant_message (oracle (iteration + 1))),
                .toolResults ((P.parse_tool_calls (oracle (iteration + 1))).map fun tc =>
                  P.format_tool_result tc.id tc.name (executeTool toolFuns tc))])
      (addUsage usage (P.get_usage (oracle (iteration + 1))))
    exact ⟨by rw [h.1]; omega, h.2⟩

/-- C1: for every vendor whose responses never signal completion and
always carry tool calls, process_request stops after exactly
max_iterations = 10 adapter calls and returns the Max-iterations payload
with a null partial_data field; it cannot loop further. -/
theorem c1_loop_terminates_at_ceiling (P : ProviderM ρ μ τ) (toolFuns : ToolFuns)
    (oracle : Nat → ρ) (jp : String → Option JVal) (fm bm : String → List String)
    (userMessage : String)
    (hnc : ∀ i, P.is_complete (oracle i) = false)
    (htc : ∀ i, P.parse_tool_calls (oracle i) ≠ []) :
    max_iterations = 10
    ∧ (processRequest P toolFuns oracle jp fm bm userMessage).iterations = 10
    ∧ (processRequest P toolFuns oracle jp fm bm userMessage).data = maxIterPayload := by
  have h := processLoop_exhausts P toolFuns oracle jp fm bm hnc htc
    max_iterations 0 [.user userMessage] ⟨0, 0⟩
  exact ⟨rfl, h.1, h.2⟩

/-- A vendor oracle for witnesses: always the same incomplete response
carrying one tool call. -/
def oracleW : Nat → AResponse :=
  fun _ => ⟨"tool_use", [ABlock.tool_use "toolu_1" "geocode_location" (JVal.obj [])], ⟨3, 7⟩⟩

/-- An empty tool catalog for witnesses. -/
def tfW : ToolFuns := fun _ => none

/-- The Anthropic adapter assembled as a provider record. -/
def anthropicProviderM : ProviderM AResponse (List ABlock) AToolResult :=
  { is_complete := anthropicIsComplete,
    parse_tool_calls := anthropicParseToolCalls,
    extract_final_response := anthropicExtractFinalResponse,
    format_assistant_message := anthropicFormatAssistantMessage,
    format_tool_result := anthropicFormatToolResult,
    get_usage := anthropicGetUsage }

/-- Witness for C1: driving the loop with the concrete never-complete
oracle stops at 10 iterations with the ceiling payload. -/
theorem c1_loop_terminates_at_ceiling_witness :
    (processRequest anthropicProviderM tfW oracleW jpW fmW bmW "hi").iterations = 10
    ∧ (processRequest anthropicProviderM tfW oracleW jpW fmW bmW "hi").data
        = maxIterPayload := by
  have h := c1_loop_terminates_at_ceiling anthropicProviderM tfW oracleW jpW fmW bmW "hi"
    (fun _ => rfl)
    (fun _ => by
      rw [show anthropicProviderM.parse_tool_calls (oracleW _)
          = [⟨"toolu_1", "geocode_location", JVal.obj []⟩] from rfl]
      exact List.cons_ne_nil _ _)
  exact ⟨h.2.1, h.2.2⟩

/-- C4: a model turn with N tool calls appends, before the next adapter
call, exactly one new tool-results message holding exactly N fragments,
in tool-call order, the i-th fragment correlated to the i-th call id. -/
theorem c4_tool_results_correlated (P : ProviderM ρ μ τ) (callIdOf : τ → String)
    (hproj : ∀ id n c, callIdOf (P.format_tool_result id n c) = id)
    (toolFuns : ToolFuns) (oracle : Nat → ρ)
    (jp : String → Option JVal) (fm bm : String → List String)
    (fuel iteration : Nat) (msgs : List (LoopMsg μ τ)) (usage : Usage)
    (hnc : P.is_complete (oracle (iteration + 1)) = false)
    (htc : P.parse_tool_calls (oracle (iteration + 1)) ≠ []) :
    processLoop P toolFuns oracle jp fm bm (fuel + 1) iteration msgs usage
      = processLoop P toolFuns oracle jp fm bm fuel (iteration + 1)
          (msgs ++ [.assistant (P.format_assistant_message (oracle (iteration + 1))),
                    .toolResults ((P.parse_tool_calls (oracle (iteration + 1))).map fun tc =>
                      P.format_tool_result tc.id tc.name (executeTool toolFuns tc))])
          (addUsage usage (P.get_usage (oracle (iteration + 1))))
    ∧ ((P.parse_tool_calls (oracle (iteration + 1))).map fun tc =>
          P.format_tool_result tc.id tc.name (executeTool toolFuns tc)).length
        = (P.parse_tool_calls (oracle (iteration + 1))).length
    ∧ ((P.parse_tool_calls (oracle (iteration + 1))).map fun tc =>
          P.format_tool_result tc.id tc.name (executeTool toolFuns tc)).map callIdOf
        = (P.parse_tool_calls (oracle (iteration + 1))).map (fun tc => tc.id) := by
  refine ⟨processLoop_step P toolFuns oracle jp fm bm fuel iteration msgs usage hnc htc,
    List.length_map _ _, ?_⟩
  simp [List.map_map, Function.comp, hproj]

/-- Witness for C4 at the concrete Anthropic instantiation: the fragment
ids equal the tool-call ids. -/
theorem c4_tool_results_correlated_witness :
    ((anthropicProviderM.parse_tool_calls (oracleW 1)).map fun tc =>
        anthropicProviderM.format_tool_result tc.id tc.name (executeTool tfW tc)).map
          AToolResult.tool_use_id
      = (anthropicProviderM.parse_tool_calls (oracleW 1)).map (fun tc => tc.id) :=
  (c4_tool_results_correlated anthropicProviderM AToolResult.tool_use_id
    (fun _ _ _ => rfl) tfW oracleW jpW fmW bmW 0 0 [] ⟨0, 0⟩ rfl
    (by
      rw [show anthropicProviderM.parse_tool_calls (oracleW 1)
          = [⟨"toolu_1", "geocode_location", JVal.obj []⟩] from rfl]
      exact List.cons_ne_nil _ _)).2.2

/-- Occurrence is preserved by appending text. -/
theorem strMentions_append_right (needle s t : String)
    (h : strMentions needle s = true) : strMentions needle (s ++ t) = true := by
  obtain ⟨u, v, huv⟩ := of_decide_eq_true h
  refine decide_eq_true ⟨u, v ++ t.data, ?_⟩
  rw [String.data_append, ← huv]
  simp [List.append_assoc]

/-- Every string occurs in itself. -/
theorem strMentions_refl (s : String) : strMentions s s = true :=
  decide_eq_true ⟨[], [], by simp⟩

/-- C8: a tool-call name absent from the catalog yields an error string;
a tool function that raises yields an error string embedding the original
exception message; in both cases the loop appends the string as that
result content of that tool and continues to the next iteration instead of
aborting. -/
theorem c8_tool_failure_recovery (toolFuns : ToolFuns) (tc : ToolCall)
    (f : JVal → Except String String) (e : String)
    (P : ProviderM ρ μ τ) (contentOf : τ → String)
    (hcont : ∀ id n c, contentOf (P.format_tool_result id n c) = c)
    (oracle : Nat → ρ) (jp : String → Option JVal) (fm bm : String → List String)
    (fuel iteration : Nat) (msgs : List (LoopMsg μ τ)) (usage : Usage)
    (hnc : P.is_complete (oracle (iteration + 1)) = false)
    (htc : P.parse_tool_calls (oracle (iteration + 1)) ≠ []) :
    (toolFuns tc.name = none →
        executeTool toolFuns tc = unknownToolMsg tc.name
        ∧ strMentions "Error" (unknownToolMsg tc.name) = true)
    ∧ (toolFuns tc.name = some f → f tc.input = .error e →
        executeTool toolFuns tc = toolRaisedMsg tc.name e
        ∧ strMentions "Error" (toolRaisedMsg tc.name e) = true
        ∧ strMentions e (toolRaisedMsg tc.name e) = true)
    ∧ processLoop P toolFuns oracle jp fm bm (fuel + 1) iteration msgs usage
        = processLoop P toolFuns oracle jp fm bm fuel (iteration + 1)
            (msgs ++ [.assistant (P.format_assistant_message (oracle (iteration + 1))),
                      .toolResults ((P.parse_tool_calls (oracle (iteration + 1))).map fun c =>
                        P.format_tool_result c.id c.name (executeTool toolFuns c))])
            (addUsage usage (P.get_usage (oracle (iteration + 1))))
    ∧ ((P.parse_tool_calls (oracle (iteration + 1))).map fun c =>
          P.format_tool_result c.id c.name (executeTool toolFuns c)).map contentOf
        = (P.parse_tool_calls (oracle (iteration + 1))).map (executeTool toolFuns) := by
  refine ⟨?_, ?_, processLoop_step P toolFuns oracle jp fm bm fuel iteration msgs usage hnc htc, ?_⟩
  · intro hn
    refine ⟨by simp [executeTool, hn], ?_⟩
    have m1 := strMentions_append_right "Error" "Error: Unknown tool " quoteChar (by decide)
    have m2 := strMentions_append_right "Error" _ tc.name m1
    exact strMentions_append_right "Error" _ quoteChar m2
  · intro hs he
    refine ⟨by simp [executeTool, hs, he], ?_, ?_⟩
    · have m1 := strMentions_append_right "Error" "Error executing " tc.name (by decide)
      have m2 := strMentions_append_right "Error" _ ": " m1
      exact strMentions_append_right "Error" _ e m2
    · exact strMentions_append_left e ("Error executing " ++ tc.name ++ ": ") e
        (strMentions_refl e)
  · simp [List.map_map, Function.comp, hcont]

/-- A witness catalog with one raising tool function. -/
def fR : JVal → Except String String := fun _ => .error "boom"

/-- A witness catalog: geocode_location raises, everything else is
unknown. -/
def tfR : ToolFuns := fun n => if n = "geocode_location" then some fR else none

/-- Witness for C8 at a concrete raising tool: the result is the error
string and it mentions the original message. -/
theorem c8_tool_failure_recovery_witness :
    executeTool tfR ⟨"toolu_1", "geocode_location", JVal.obj []⟩
        = toolRaisedMsg "geocode_location" "boom"
    ∧ strMentions "boom" (toolRaisedMsg "geocode_location" "boom") = true := by
  have h := (c8_tool_failure_recovery tfR ⟨"toolu_1", "geocode_location", JVal.obj []⟩
    fR "boom" anthropicProviderM AToolResult.content (fun _ _ _ => rfl)
    oracleW jpW fmW bmW 0 0 [] ⟨0, 0⟩ rfl
    (by
      rw [show anthropicProviderM.parse_tool_calls (oracleW 1)
          = [⟨"toolu_1", "geocode_location", JVal.obj []⟩] from rfl]
      exact List.cons_ne_nil _ _)).2.1 rfl rfl
  exact ⟨h.1, h.2.2⟩

/-- C2 counterexample: the Anthropic adapter reports completion on
stop_reason end_turn even though a tool_use block is pending, and the
OpenAI chat adapter reports completion on finish_reason stop even though
tool_calls are pending — both contradicting the claim that every adapter
checks tool calls before declaring completion. -/
theorem c2_counterexample :
    (anthropicIsComplete
        ⟨"end_turn", [ABlock.tool_use "toolu_1" "geocode_location" (JVal.obj [])], ⟨0, 0⟩⟩
      = true
    ∧ anthropicParseToolCalls
        ⟨"end_turn", [ABlock.tool_use "toolu_1" "geocode_location" (JVal.obj [])], ⟨0, 0⟩⟩
      = [⟨"toolu_1", "geocode_location", JVal.obj []⟩])
    ∧ (openaiIsComplete
        ⟨[⟨"stop", ⟨none, [⟨"call_1", ⟨"geocode_location", ""⟩⟩]⟩⟩], none⟩
      = true
    ∧ openaiParseToolCalls (fun _ => none)
        ⟨[⟨"stop", ⟨none, [⟨"call_1", ⟨"geocode_location", ""⟩⟩]⟩⟩], none⟩
      = [⟨"call_1", "geocode_location", JVal.obj []⟩]) :=
  ⟨⟨rfl, rfl⟩, ⟨rfl, rfl⟩⟩

/-- Pending function calls force any-detection: if the enumerating
filterMap of function-call parts is nonempty, some part carries a
function call. -/
theorem enumFrom_fc_any (g : Nat → GFunctionCall → ToolCall) :
    ∀ (n : Nat) (ps : List GPart),
      ((List.enumFrom n ps).filterMap fun ip =>
          match ip.2.function_call with
          | some fc => some (g ip.1 fc)
          | none => none) ≠ []
      → ps.any (fun p => p.function_call.isSome) = true := by
  intro n ps
  induction ps generalizing n with
  | nil => intro h; simp [List.enumFrom] at h
  | cons p ps ih =>
    intro h
    cases hfc : p.function_call with
    | some fc => simp [List.any_cons, hfc]
    | none =>
      simp only [List.enumFrom, List.filterMap_cons, hfc] at h
      simp only [List.any_cons, hfc, Option.isSome_none, Bool.false_or]
      exact ih (n + 1) h

/-- C2 amended: the Gemini, Vertex and OpenAI-Responses adapters do
check for pending tool calls before declaring completion — a response
from which parse_tool_calls extracts at least one call is never
complete. (The Anthropic and OpenAI-chat adapters do not, per the
counterexample.) -/
theorem c2_amended_tool_calls_block_completion :
    (∀ r : GResponse, geminiParseToolCalls r ≠ [] → geminiIsComplete r = false)
    ∧ (∀ r : GResponse, vertexParseToolCalls r ≠ [] → vertexIsComplete r = false)
    ∧ (∀ (jp : String → Option JVal) (r : RResponse),
        responsesParseToolCalls jp r ≠ [] → responsesIsComplete r = false) := by
  have hgem : ∀ (g : Nat → GFunctionCall → ToolCall) (r : GResponse),
      ((List.enumFrom 0 (geminiResponseParts r)).filterMap fun ip =>
          match ip.2.function_call with
          | some fc => some (g ip.1 fc)
          | none => none) ≠ []
      → (match r.candidates with
          | [] => true
          | c :: _ =>
            match c.content with
            | none => true
            | some ct =>
              if ct.parts.isEmpty then true
              else if ct.parts.any (fun p => p.function_call.isSome) then false
              else true) = false := by
    intro g r h
    have hany := enumFrom_fc_any g 0 (geminiResponseParts r) h
    cases hc : r.candidates with
    | nil => simp [geminiResponseParts, hc] at hany
    | cons c cs =>
      cases hco : c.content with
      | none => simp [geminiResponseParts, hc, hco] at hany
      | some ct =>
        have hps : geminiResponseParts r = ct.parts := by
          simp [geminiResponseParts, hc, hco]
        rw [hps] at hany
        have hne : ct.parts.isEmpty = false := by
          cases hp : ct.parts with
          | nil => rw [hp] at hany; simp at hany
          | cons a l => rfl
        simp [hco, hne, hany]
  refine ⟨?_, ?_, ?_⟩
  · intro r h
    exact hgem (fun i fc => ⟨"gemini_tool_" ++ toString i, fc.name, JVal.obj fc.args⟩) r h
  · intro r h
    exact hgem (fun i fc => ⟨"vertex_tool_" ++ toString i, fc.name, JVal.obj fc.args⟩) r h
  · intro jp r h
    have hany : r.output.any isFunctionCallItem = true := by
      by_contra hfalse
      apply h
      unfold responsesParseToolCalls
      rw [List.filterMap_eq_nil_iff]
      intro it hit
      have hno := List.any_eq_false.mp (Bool.eq_false_iff.mpr hfalse) it hit
      cases it with
      | message role content => rfl
      | function_call a b c => exact absurd rfl hno
      | otherItem => rfl
    unfold responsesIsComplete
    by_cases hst : r.status == "completed"
    · rw [if_pos hst, hany]; rfl
    · rw [if_neg hst]

/-- A Gemini response carrying one pending function call, for the C2
witness. -/
def grFC : GResponse := ⟨[⟨some ⟨[⟨none, some ⟨"geocode_location", []⟩⟩]⟩⟩], none⟩

/-- A Responses-API response carrying one pending function call, for the
C2 witness. -/
def rrFC : RResponse :=
  ⟨"completed", [RItem.function_call "call_1" "geocode_location" ""], none⟩

/-- Witness for the amended C2 at concrete pending-tool-call responses. -/
theorem c2_amended_tool_calls_block_completion_witness :
    geminiIsComplete grFC = false
    ∧ responsesIsComplete rrFC = false := by
  constructor
  · exact c2_amended_tool_calls_block_completion.1 grFC
      (by
        rw [show geminiParseToolCalls grFC
            = [⟨"gemini_tool_0", "geocode_location", JVal.obj []⟩] from rfl]
        exact List.cons_ne_nil _ _)
  · exact c2_amended_tool_calls_block_completion.2.2 (fun _ => none) rrFC
      (by
        rw [show responsesParseToolCalls (fun _ => none) rrFC
            = [⟨"call_1", "geocode_location", JVal.obj []⟩] from rfl]
        exact List.cons_ne_nil _ _)

/-- Whether an Anthropic block is a text block. -/
def ABlock.isTextBlock : ABlock → Bool
  | .text _ => true
  | _ => false

/-- C6 counterexample: an Anthropic response with two text blocks — the
adapter returns only the first textual part, not the concatenation of
all textual parts. -/
theorem c6_counterexample :
    anthropicExtractFinalResponse ⟨"end_turn", [ABlock.text "A", ABlock.text "B"], ⟨0, 0⟩⟩
      = "A"
    ∧ anthropicAllTextConcat [ABlock.text "A", ABlock.text "B"] = "AB"
    ∧ ("A" : String) ≠ "AB" := by
  refine ⟨rfl, by simp [anthropicAllTextConcat, concatAll], by decide⟩

/-- Skipping falsy (empty) text parts does not change the concatenation
of all text parts. -/
theorem concatAll_collect (ps : List GPart) :
    concatAll (geminiCollectTexts ps) = concatAll (ps.filterMap fun p => p.text) := by
  induction ps with
  | nil => rfl
  | cons p ps ih =>
    cases hp : p.text with
    | none => simp [geminiCollectTexts, List.filterMap_cons, hp, ih]
    | some s =>
      by_cases hs : s = ""
      · subst hs
        simp [geminiCollectTexts, List.filterMap_cons, hp, concatAll, ih,
          String.empty_append]
      · simp [geminiCollectTexts, List.filterMap_cons, hp, hs, concatAll, ih]

/-- Modelled from the spec: the concatenation of all textual parts of a
Responses-API response, in order — the output_text elements of
assistant message items. -/
def responsesAllTextConcat (r : RResponse) : String :=
  concatAll ((r.output.map fun it =>
    match it with
    | .message role content =>
      if role == "assistant" then
        concatAll (content.filterMap fun c =>
          match c with
          | .output_text t => some t
          | _ => none)
      else ""
    | _ => ""))

/-- Per-item flattening: concatenating per-item text equals the flat
concatenation of the flatMap. -/
theorem concatAll_flatMap (f : RItem → List String) (l : List RItem) :
    concatAll (l.flatMap f) = concatAll (l.map fun it => concatAll (f it)) := by
  induction l with
  | nil => rfl
  | cons it l ih =>
    simp only [List.flatMap_cons, List.map_cons, concatAll]
    rw [← ih]
    induction f it with
    | nil => simp [concatAll, String.empty_append]
    | cons s ss ih2 => simp [concatAll, ih2, String.append_assoc]

/-- The first-text scan skips leading non-text blocks and stops at the
first text block, ignoring everything after it. -/
theorem anthropicFirstText_append :
    ∀ (bs1 : List ABlock) (s : String) (bs2 : List ABlock),
      (∀ b ∈ bs1, b.isTextBlock = false) →
      anthropicFirstText (bs1 ++ ABlock.text s :: bs2) = s := by
  intro bs1
  induction bs1 with
  | nil => intro s bs2 _; rfl
  | cons b bs ih =>
    intro s bs2 hb
    cases b with
    | text t =>
      have h1 := hb (ABlock.text t) (List.mem_cons_self _ _)
      simp [ABlock.isTextBlock] at h1
    | tool_use a n i =>
      simp only [List.cons_append, anthropicFirstText]
      exact ih s bs2 fun x hx => hb x (List.mem_cons_of_mem _ hx)

/-- The first-text scan returns the empty string when no block is a
text block. -/
theorem anthropicFirstText_no_text :
    ∀ bs : List ABlock, (∀ b ∈ bs, b.isTextBlock = false) →
      anthropicFirstText bs = "" := by
  intro bs
  induction bs with
  | nil => intro _; rfl
  | cons b bs ih =>
    intro hb
    cases b with
    | text t =>
      have h1 := hb (ABlock.text t) (List.mem_cons_self _ _)
      simp [ABlock.isTextBlock] at h1
    | tool_use a n i =>
      simp only [anthropicFirstText]
      exact ih fun x hx => hb x (List.mem_cons_of_mem _ hx)

/-- The Gemini extraction equals the concatenation of all text parts of
the first candidate. -/
theorem geminiExtract_eq_allText (r : GResponse) :
    geminiExtractFinalResponse r = geminiAllTextConcat r := by
  unfold geminiExtractFinalResponse geminiAllTextConcat geminiResponseParts
  cases hc : r.candidates with
  | nil => rfl
  | cons c cs =>
    cases hco : c.content with
    | none => simp [hco, concatAll]
    | some ct =>
      cases hp : ct.parts with
      | nil => simp [hco, hp, concatAll]
      | cons a l =>
        have h := concatAll_collect (a :: l)
        simpa [hco, hp] using h

/-- C6 amended: the Gemini, Vertex and OpenAI-Responses adapters return
the concatenation of all textual parts of the response in order, the
empty string when none are present; the Anthropic adapter instead
returns the text of the first text block, ignoring every later textual
part (empty string if there is none). -/
theorem c6_amended_extract_final_response :
    (∀ r : GResponse, geminiExtractFinalResponse r = geminiAllTextConcat r)
    ∧ (∀ r : GResponse, vertexExtractFinalResponse r = geminiAllTextConcat r)
    ∧ (∀ r : RResponse, responsesExtractFinalResponse r = responsesAllTextConcat r)
    ∧ (∀ (stop : String) (bs1 : List ABlock) (s : String) (bs2 : List ABlock) (u : Usage),
        (∀ b ∈ bs1, b.isTextBlock = false) →
        anthropicExtractFinalResponse ⟨stop, bs1 ++ ABlock.text s :: bs2, u⟩ = s)
    ∧ (∀ (stop : String) (bs : List ABlock) (u : Usage),
        (∀ b ∈ bs, b.isTextBlock = false) →
        anthropicExtractFinalResponse ⟨stop, bs, u⟩ = "") := by
  refine ⟨geminiExtract_eq_allText, ?_, ?_, ?_, ?_⟩
  · intro r
    rw [← geminiExtract_eq_allText r]
    unfold geminiExtractFinalResponse vertexExtractFinalResponse
    rfl
  · intro r
    unfold responsesExtractFinalResponse responsesAllTextConcat
    rw [concatAll_flatMap]
    congr 1
    apply List.map_congr_left
    intro it _
    cases it with
    | message role content =>
      by_cases hr : role == "assistant"
      · simp [hr]
      · simp [hr, concatAll]
    | function_call a b c => rfl
    | otherItem => rfl
  · intro stop bs1 s bs2 u hb
    exact anthropicFirstText_append bs1 s bs2 hb
  · intro stop bs u hb
    exact anthropicFirstText_no_text bs hb

/-- Witness for the amended C6 at concrete Anthropic responses: one
whose first block is a tool_use block followed by two text blocks (the
text of the first text block is returned), and one with no text block
at all (the empty string is returned). -/
theorem c6_amended_extract_final_response_witness :
    anthropicExtractFinalResponse
        ⟨"end_turn",
         [ABlock.tool_use "toolu_1" "geocode_location" (JVal.obj []),
          ABlock.text "hello", ABlock.text "world"], ⟨0, 0⟩⟩
      = "hello"
    ∧ anthropicExtractFinalResponse
        ⟨"end_turn", [ABlock.tool_use "toolu_1" "geocode_location" (JVal.obj [])], ⟨0, 0⟩⟩
      = "" := by
  constructor
  · exact c6_amended_extract_final_response.2.2.2.1 "end_turn"
      [ABlock.tool_use "toolu_1" "geocode_location" (JVal.obj [])] "hello"
      [ABlock.text "world"] ⟨0, 0⟩
      (by intro b hb; simp at hb; subst hb; rfl)
  · exact c6_amended_extract_final_response.2.2.2.2 "end_turn"
      [ABlock.tool_use "toolu_1" "geocode_location" (JVal.obj [])] ⟨0, 0⟩
      (by intro b hb; simp at hb; subst hb; rfl)

/-- C7 counterexample: gpt-5-nano is listed in MODELS with its own rate,
but the pricing override of the OpenAI chat adapter returns the hard-coded
gpt-5-mini rate for it instead of the table rate. -/
theorem c7_counterexample :
    modelsPricing "gpt-5-nano" = some ⟨0.05, 0.40⟩
    ∧ openaiPricing "gpt-5-nano" = ⟨0.25, 2.00⟩
    ∧ (⟨0.25, 2.00⟩ : Pricing) ≠ ⟨0.05, 0.40⟩ := by
  refine ⟨by simp [modelsPricing, MODELS, List.lookup], rfl, ?_⟩
  intro h
  have h1 := congrArg Pricing.input h
  norm_num at h1

/-- C7 amended: the base pricing operation (inherited by the Anthropic,
Gemini, Vertex and OpenAI-Responses adapters) returns the MODELS rate
when the model is listed and DEFAULT_PRICING = (1.00, 5.00) when it is
not; the OpenAI chat adapter overrides it and always returns
(0.25, 2.00) regardless of its model name. -/
theorem c7_amended_pricing :
    (∀ (name : String) (pv : String × Pricing),
        MODELS.lookup name = some pv → basePricing name = pv.2)
    ∧ (∀ name : String, MODELS.lookup name = none → basePricing name = DEFAULT_PRICING)
    ∧ (∀ m : String, openaiPricing m = ⟨0.25, 2.00⟩)
    ∧ DEFAULT_PRICING = ⟨1.00, 5.00⟩ := by
  refine ⟨?_, ?_, fun _ => rfl, rfl⟩
  · intro name pv h
    simp [basePricing, modelsPricing, h]
  · intro name h
    simp [basePricing, modelsPricing, h]

/-- Witness for the amended C7: a listed model uses its table rate and
an unlisted one falls back to the default. -/
theorem c7_amended_pricing_witness :
    basePricing "claude-sonnet-4" = ⟨3.00, 15.00⟩
    ∧ basePricing "no-such-model" = DEFAULT_PRICING := by
  constructor
  · exact c7_amended_pricing.1 "claude-sonnet-4" ("anthropic", ⟨3.00, 15.00⟩)
      (by simp [ MODELS, List.lookup])
  · exact c7_amended_pricing.2.1 "no-such-model" (by simp [ MODELS, List.lookup])

/-- C9 counterexample: the factory rejects an unknown provider name with
a ValueError, not an exception class named ConfigurationError. -/
theorem c9_counterexample :
    get_provider (some "foo") none "completions"
      = .error ⟨"ValueError", unknownProviderMsg "foo"⟩
    ∧ ("ValueError" : String) ≠ "ConfigurationError" := by
  refine ⟨rfl, by decide⟩

/-- C9 amended: for every name outside the known providers the factory
raises a ValueError (the failure the spec taxonomy files under
ConfigurationError) whose message enumerates every known provider name,
and constructs no adapter. -/
theorem c9_unknown_provider (name : String) (hne : name ≠ "")
    (h : name ∉ providerIds) (model : Option String) (api_mode : String) :
    get_provider (some name) model api_mode
      = .error ⟨"ValueError", unknownProviderMsg name⟩
    ∧ (∀ p ∈ providerIds, strMentions p (unknownProviderMsg name) = true)
    ∧ get_provider (some "") model api_mode = .ok ProviderKind.anthropic := by
  refine ⟨?_, ?_, rfl⟩
  · simp [get_provider, hne, h]
  · intro p hp
    have hbase : strMentions p availableStr = true := by
      simp only [providerIds, List.mem_cons, List.not_mem_nil, or_false] at hp
      rcases hp with rfl | rfl | rfl | rfl <;> decide
    have := strMentions_append_left p
      ("Unknown provider: " ++ name ++ ". Available: ") availableStr hbase
    exact this

/-- Witness for the amended C9 at the concrete unknown name foo: the
truthy unknown name raises, and the falsy empty name falls back to the
default provider instead. -/
theorem c9_unknown_provider_witness :
    ("foo" : String) ≠ ""
    ∧ ("foo" ∉ providerIds)
    ∧ get_provider (some "foo") none "completions"
        = .error ⟨"ValueError", unknownProviderMsg "foo"⟩
    ∧ strMentions "vertex" (unknownProviderMsg "foo") = true
    ∧ get_provider (some "") none "completions" = .ok ProviderKind.anthropic := by
  have h := c9_unknown_provider "foo" (by decide) (by decide) none "completions"
  exact ⟨by decide, by decide, h.1, h.2.1 "vertex" (by decide), h.2.2⟩

/- --------------- OpenAI conversation rebuild (C5) -------------------- -/

/-- A message of the rebuilt OpenAI chat request. -/
inductive OWireMsg where
  | system : String → OWireMsg
  | plain : String → String → OWireMsg
  | assistantCalls : Option String → List OMsgToolCall → OWireMsg
  | tool : String → String → String → OWireMsg

/-- A conversation message as seen by OpenAIProvider._build_messages:
a string-content message, an assistant message from
format_assistant_message, or a user message carrying tool-result
fragments. -/
inductive OConvMsg where
  | text : String → String → OConvMsg
  | assistant : OAsstMsg → OConvMsg
  | frags : String → List ToolResultFrag → OConvMsg

/-- The per-message translation of OpenAIProvider._build_messages: an
assistant message with tool calls passes through with the calls (the
tool_calls key exists exactly when the call list is nonempty); string
contents pass through; list contents keep only tool_result items, each
becoming a role-tool message correlated by tool_call_id; system
messages are dropped (handled separately). -/
def openaiConvertMsg : OConvMsg → List OWireMsg
  | .text role content =>
    if role == "system" then [] else [.plain role content]
  | .assistant am =>
    match am.tool_calls with
    | [] =>
      match am.content with
      | some s => [.plain "assistant" s]
      | none => []
    | tc :: tcs => [.assistantCalls am.content (tc :: tcs)]
  | .frags role its =>
    if role == "system" then []
    else
      its.filterMap fun it =>
        if it.type == "tool_result"
        then some (OWireMsg.tool it.tool_use_id it.tool_name it.content)
        else none

/-- OpenAIProvider._build_messages: system prompt first, then the
translated conversation. -/
def openaiBuildMessages (msgs : List OConvMsg) (system_prompt : String) : List OWireMsg :=
  (if system_prompt = "" then [] else [.system system_prompt])
    ++ msgs.flatMap openaiConvertMsg

/-- The tool-result fragments built from parsed calls translate to
role-tool wire messages carrying the same call ids. -/
theorem openai_frags_translate (pcs : List ToolCall) (resOf : ToolCall → String) :
    ((pcs.map fun tc => openaiFormatToolResult tc.id tc.name (resOf tc)).filterMap fun it =>
        if it.type == "tool_result"
        then some (OWireMsg.tool it.tool_use_id it.tool_name it.content)
        else none)
      = pcs.map fun tc => OWireMsg.tool tc.id tc.name (resOf tc) := by
  induction pcs with
  | nil => rfl
  | cons tc pcs ih => exact congrArg (List.cons _) ih

/-- The Gemini tool-result items translate to function_response parts
correlated by tool name. -/
theorem gemini_frags_translate (pcs : List ToolCall) (resOf : ToolCall → String) :
    ((pcs.map fun tc => geminiFormatToolResult tc.id tc.name (resOf tc)).filterMap fun it =>
        match it with
        | GItem.toolResultItem _ name content => some (GenPart.functionResponse name content)
        | _ => none)
      = pcs.map fun tc => GenPart.functionResponse tc.name (resOf tc) := by
  induction pcs with
  | nil => rfl
  | cons tc pcs ih => exact congrArg (List.cons _) ih

/-- C5 amended: for the OpenAI chat adapter, appending the assistant
message and the tool-result message and rebuilding the request keeps
every call id — the assistant turn passes its tool_calls through and
each tool result becomes a role-tool message with the matching
tool_call_id. For the Gemini adapter the rebuilt request correlates
tool results by tool name only: the assistant function_call parts are
dropped and the synthetic call id does not appear. -/
theorem c5_amended_round_trip :
    (∀ (r : OResponse) (c : OChoice) (rest : List OChoice) (jp : String → Option JVal)
        (msgs : List OConvMsg) (sys : String) (resOf : ToolCall → String),
        r.choices = c :: rest → c.message.tool_calls ≠ [] →
        openaiBuildMessages
            (msgs ++ [.assistant (openaiFormatAssistantMessage r),
                      .frags "user" ((openaiParseToolCalls jp r).map fun tc =>
                        openaiFormatToolResult tc.id tc.name (resOf tc))])
            sys
          = openaiBuildMessages msgs sys
            ++ [.assistantCalls (openaiFormatAssistantMessage r).content
                  c.message.tool_calls]
            ++ ((openaiParseToolCalls jp r).map fun tc =>
                  OWireMsg.tool tc.id tc.name (resOf tc))
        ∧ c.message.tool_calls.map (fun tc => tc.id)
            = (openaiParseToolCalls jp r).map (fun tc => tc.id))
    ∧ (∀ (msgs : List GConvMsg) (r : GResponse) (resOf : ToolCall → String),
        geminiParseToolCalls r ≠ [] →
        geminiBuildContents
            (msgs ++ [GConvMsg.items "user" ((geminiParseToolCalls r).map fun tc =>
              geminiFormatToolResult tc.id tc.name (resOf tc))])
          = geminiBuildContents msgs
            ++ [⟨"user", (geminiParseToolCalls r).map fun tc =>
                  GenPart.functionResponse tc.name (resOf tc)⟩]) := by
  constructor
  · intro r c rest jp msgs sys resOf hch hne
    obtain ⟨tc0, tcs0, htc0⟩ := List.exists_cons_of_ne_nil hne
    have hamtc : (openaiFormatAssistantMessage r).tool_calls = tc0 :: tcs0 := by
      unfold openaiFormatAssistantMessage
      rw [hch]
      exact htc0
    have hamfull : openaiFormatAssistantMessage r
        = ⟨(openaiFormatAssistantMessage r).content, tc0 :: tcs0⟩ := by
      rw [← hamtc]
    have hconv_assistant : ∀ (cnt : Option String) (tc1 : OMsgToolCall)
        (l : List OMsgToolCall),
        openaiConvertMsg (.assistant ⟨cnt, tc1 :: l⟩) = [.assistantCalls cnt (tc1 :: l)] :=
      fun _ _ _ => rfl
    have hconv_frags : ∀ its : List ToolResultFrag,
        openaiConvertMsg (.frags "user" its)
          = its.filterMap fun it =>
              if it.type == "tool_result"
              then some (OWireMsg.tool it.tool_use_id it.tool_name it.content)
              else none :=
      fun _ => rfl
    constructor
    · unfold openaiBuildMessages
      rw [List.flatMap_append]
      simp only [List.flatMap_cons, List.flatMap_nil, List.append_nil]
      rw [htc0, hamfull, hconv_assistant, hconv_frags, openai_frags_translate]
      simp [List.append_assoc]
    · unfold openaiParseToolCalls
      rw [hch]
      simp [List.map_map, Function.comp]
  · intro msgs r resOf hne
    obtain ⟨tc0, tcs0, htc0⟩ := List.exists_cons_of_ne_nil hne
    have hconv_items : ∀ its : List GItem,
        geminiBuildContents [GConvMsg.items "user" its]
          = (if (its.filterMap fun it =>
                  match it with
                  | GItem.toolResultItem _ n ct => some (GenPart.functionResponse n ct)
                  | _ => none).isEmpty
             then []
             else [⟨geminiMapRole "user",
                    its.filterMap fun it =>
                      match it with
                      | GItem.toolResultItem _ n ct => some (GenPart.functionResponse n ct)
                      | _ => none⟩]) := by
      intro its
      unfold geminiBuildContents
      simp only [List.flatMap_cons, List.flatMap_nil, List.append_nil]
      rfl
    have hsplit : geminiBuildContents
          (msgs ++ [GConvMsg.items "user" ((geminiParseToolCalls r).map fun tc =>
            geminiFormatToolResult tc.id tc.name (resOf tc))])
        = geminiBuildContents msgs
          ++ geminiBuildContents
              [GConvMsg.items "user" ((geminiParseToolCalls r).map fun tc =>
                geminiFormatToolResult tc.id tc.name (resOf tc))] := by
      unfold geminiBuildContents
      rw [List.flatMap_append]
    rw [hsplit, hconv_items, gemini_frags_translate, htc0]
    simp [geminiMapRole]

/-- All string fields occurring in a rebuilt Gemini request part. -/
def genPartStrings : GenPart → List String
  | .textPart s => [s]
  | .functionResponse n res => [n, res]

/-- All string fields occurring in a rebuilt Gemini request. -/
def gcontentsStrings (cs : List GContent) : List String :=
  cs.flatMap fun c => c.role :: c.parts.flatMap genPartStrings

/-- C5 counterexample: the Gemini adapter emits the synthetic call id
gemini_tool_0 for a pending function call, but after appending the
assistant message and its tool result and rebuilding the request, the
assistant function_call part is dropped entirely and no string of the
rebuilt request contains that id — the call id does not survive the
round trip. -/
theorem c5_counterexample :
    geminiParseToolCalls grFC = [⟨"gemini_tool_0", "geocode_location", JVal.obj []⟩]
    ∧ geminiBuildContents
        [GConvMsg.text "user" "u",
         geminiFormatAssistantMessage grFC,
         GConvMsg.items "user"
           [geminiFormatToolResult "gemini_tool_0" "geocode_location" "res"]]
      = [⟨"user", [GenPart.textPart "u"]⟩,
         ⟨"user", [GenPart.functionResponse "geocode_location" "res"]⟩]
    ∧ ((gcontentsStrings
          [⟨"user", [GenPart.textPart "u"]⟩,
           ⟨"user", [GenPart.functionResponse "geocode_location" "res"]⟩]).any
        fun s => strMentions "gemini_tool_0" s) = false := by
  refine ⟨rfl, rfl, by decide⟩

/-- A concrete OpenAI response with one pending tool call, for the C5
witness. -/
def orRT : OResponse :=
  ⟨[⟨"tool_calls", ⟨none, [⟨"call_1", ⟨"geocode_location", ""⟩⟩]⟩⟩], none⟩

/-- Witness for the amended C5 at the concrete OpenAI response: the
assistant tool-call ids equal the parsed tool-call ids, so each id is
available to the rebuilt request. -/
theorem c5_amended_round_trip_witness :
    ([⟨"call_1", ⟨"geocode_location", ""⟩⟩] : List OMsgToolCall).map (fun tc => tc.id)
      = (openaiParseToolCalls (fun _ => none) orRT).map (fun tc => tc.id) :=
  (c5_amended_round_trip.1 orRT ⟨"tool_calls", ⟨none, [⟨"call_1", ⟨"geocode_location", ""⟩⟩]⟩⟩
    [] (fun _ => none) [] "sys" (fun _ => "res") rfl (List.cons_ne_nil _ _)).2
